import Mathlib

/-!
Verification of `check_links.py` (awesome-openclaw-skills link checker).

The Python script is embedded shallowly:
* strings are `List Char` (`Str`), so that Python `str.split`, regex
  scanning and slicing become structurally recursive list functions;
* the network is an oracle `Str → ProbeResult` mapping the probed URL to
  what `urllib.request.urlopen` does there: return a response with a
  status, or raise one of the exception classes the script catches;
* the thread pool of `check_all_links` is modelled by mapping the pure
  per-link checker over the entries; the completion order of the pool is
  an arbitrary permutation of that list (the `time.sleep` throttling has
  no observable effect on the returned data);
* file I/O is modelled by passing the document as a list of lines
  (without trailing newlines; a regex match can never straddle the
  final newline of a line because it must end at a closing parenthesis).
-/

/-- Python strings, modelled as lists of characters. -/
abbrev Str := List Char

/-- Characters that Python's `\s` matches on ASCII input
(the script's document is ASCII markdown; the Unicode spaces that
Python's `str`-pattern `\s` additionally matches are not modelled). -/
def pySpace (c : Char) : Bool :=
  c = ' ' || c = '\t' || c = '\n' || c = '\r' || c = '\x0b' || c = '\x0c'

/-- Python `s.split(sep)` for a one-character separator: splits at every
occurrence, keeping empty pieces (`"".split` gives `[""]`,
`"/a".split("/")` gives `["", "a"]`). -/
def splitOnChar (sep : Char) : Str → List Str
  | [] => [[]]
  | c :: cs =>
    if c = sep then [] :: splitOnChar sep cs
    else
      match splitOnChar sep cs with
      | [] => [[c]]
      | h :: t => (c :: h) :: t

/-- Split at the first occurrence of `sep`: returns the part before it and,
when `sep` occurs, the part after it (Python `s.split(sep, 1)`). -/
def splitFirst (sep : Char) : Str → Str × Option Str
  | [] => ([], none)
  | c :: cs =>
    if c = sep then ([], some cs)
    else
      match splitFirst sep cs with
      | (pre, post) => (c :: pre, post)

/-- Characters allowed in a URL scheme after the leading letter
(CPython `urllib.parse.scheme_chars`). -/
def isSchemeChar (c : Char) : Bool :=
  c.isAlphanum || c = '+' || c = '-' || c = '.'

/-- Result of `urllib.parse.urlparse` (the components the script uses,
plus query/fragment which the parse must strip from the path). -/
structure ParsedUrl where
  scheme : Str
  netloc : Str
  path : Str
  query : Str
  fragment : Str
deriving Repr, DecidableEq

/-- Split a leading `scheme:` (nonempty, starts with a letter, only scheme
characters) off a URL; otherwise leave the URL whole. -/
def splitScheme (cs : Str) : Str × Str :=
  let pre := cs.takeWhile isSchemeChar
  let post := cs.dropWhile isSchemeChar
  match post with
  | ':' :: rest =>
    match pre with
    | [] => ([], cs)
    | c :: _ => if c.isAlpha then (pre.map Char.toLower, rest) else ([], cs)
  | _ => ([], cs)

/-- A netloc delimiter: CPython `_splitnetloc` stops at `/`, `?` or `#`. -/
def netlocDelim (c : Char) : Bool :=
  c = '/' || c = '?' || c = '#'

/-- Model of `urllib.parse.urlparse`, following CPython `urlsplit`: scheme split at
the first `:` when the prefix is a valid scheme; netloc after `//` up to
the first `/`, `?` or `#`; then the fragment split at the first `#`; then
the query split at the first `?`. -/
def urlparse (cs : Str) : ParsedUrl :=
  let (scheme, rest) := splitScheme cs
  let (netloc, rest2) :=
    match rest with
    | '/' :: '/' :: r => (r.takeWhile (fun c => !netlocDelim c),
                          r.dropWhile (fun c => !netlocDelim c))
    | _ => ([], rest)
  let (preFrag, frag) := splitFirst '#' rest2
  let (path, query) := splitFirst '?' preFrag
  ⟨scheme, netloc, path, query.getD [], frag.getD []⟩

/-! ## Extractor: `extract_links_from_readme`

The pattern is
`-\s+\[([^\]]+)\]\((https://github\.com/openclaw/skills/[^\)]+)\)` and is
applied with `re.search` (leftmost match). Every repeated class in the
pattern (`\s+`, `[^\]]+`, `[^\)]+`) excludes the character that must follow
it, so greedy maximal-munch scanning is exactly the regex semantics and a
deterministic scanner needs no backtracking. -/

/-- The literal URL part of the extraction pattern. -/
def skillsUrlStart : Str := "https://github.com/openclaw/skills/".data

/-- Match a literal at the front of the input, returning the remainder. -/
def matchLit : Str → Str → Option Str
  | [], cs => some cs
  | _ :: _, [] => none
  | l :: ls, c :: cs => if c = l then matchLit ls cs else none

/-- Try to match the link-entry pattern starting exactly here; on success
return the two captures (display name, URL). -/
def matchAt (cs : Str) : Option (Str × Str) :=
  match cs with
  | [] => none
  | c0 :: rest =>
    if c0 = '-' then
      let ws := rest.takeWhile pySpace
      let r1 := rest.dropWhile pySpace
      if ws.isEmpty then none
      else
        match r1 with
        | [] => none
        | c1 :: r2 =>
          if c1 = '[' then
            let name := r2.takeWhile (fun c => c ≠ ']')
            let r3 := r2.dropWhile (fun c => c ≠ ']')
            if name.isEmpty then none
            else
              match r3 with
              | c2 :: c3 :: r4 =>
                if c2 = ']' ∧ c3 = '(' then
                  match matchLit skillsUrlStart r4 with
                  | some r5 =>
                    let tl := r5.takeWhile (fun c => c ≠ ')')
                    let r6 := r5.dropWhile (fun c => c ≠ ')')
                    if tl.isEmpty then none
                    else
                      match r6 with
                      | c4 :: _ => if c4 = ')' then some (name, skillsUrlStart ++ tl) else none
                      | [] => none
                  | none => none
                else none
              | _ => none
          else none
    else none

/-- Model of `re.search`: the match at the leftmost starting position, if any. -/
def searchLine : Str → Option (Str × Str)
  | [] => none
  | c :: cs =>
    match matchAt (c :: cs) with
    | some r => some r
    | none => searchLine cs

/-- The loop body of `extract_links_from_readme`, carrying the 1-indexed
line counter of `enumerate(f, 1)`. -/
def extractGo : Nat → List Str → List (Str × Str × Nat × Str)
  | _, [] => []
  | n, l :: ls =>
    match searchLine l with
    | some (name, url) => (name, url, n, l) :: extractGo (n + 1) ls
    | none => extractGo (n + 1) ls

/-- Model of `extract_links_from_readme`: one `(name, url, line_num, original_line)`
per line on which the pattern matches, lines numbered from 1. -/
def extract_links_from_readme (lines : List Str) : List (Str × Str × Nat × Str) :=
  extractGo 1 lines

/-! ## Single-link checker: URL rewrite and request construction -/

/-- The test `parsed.netloc == "github.com"` in `check_link`. -/
def is_github (url : Str) : Bool :=
  (urlparse url).netloc = "github.com".data

/-- The check target of `check_link`: a `github.com` URL whose path splits
into at least 6 segments with the 4th literally `tree` is rewritten to
`https://api.github.com/repos/<owner>/<repo>/contents/<file-path>?ref=<branch>`;
every other URL is probed as-is. -/
def check_url (url : Str) : Str :=
  let parsed := urlparse url
  if parsed.netloc = "github.com".data then
    let path_parts := splitOnChar '/' parsed.path
    if 6 ≤ path_parts.length ∧ path_parts.getD 3 [] = "tree".data then
      "https://api.github.com/repos/".data ++ path_parts.getD 1 []
        ++ "/".data ++ path_parts.getD 2 []
        ++ "/contents/".data ++ List.intercalate "/".data (path_parts.drop 5)
        ++ "?ref=".data ++ path_parts.getD 4 []
    else url
  else url

/-- The request `check_link` sends: the (possibly rewritten) target URL and
the headers added to it. -/
structure Request where
  url : Str
  headers : List (Str × Str)
deriving Repr, DecidableEq

/-- Request construction in `check_link`: always a User-Agent header; when
the original URL's host is `github.com` and a token is supplied, also an
`Authorization: token …` header and the GitHub v3 Accept header. -/
def build_request (url : Str) (github_token : Option Str) : Request :=
  let base := [("User-Agent".data, "awesome-openclaw-skills-link-checker/1.0".data)]
  let hdrs :=
    if is_github url ∧ github_token.isSome then
      base ++ [("Authorization".data, "token ".data ++ github_token.getD []),
               ("Accept".data, "application/vnd.github.v3+json".data)]
    else base
  ⟨check_url url, hdrs⟩

/-- Does a request carry a header with the given key? -/
def hasHeader (r : Request) (key : Str) : Bool :=
  r.headers.any (fun h => h.1 = key)

/-! ## Single-link checker: classification

`check_link` wraps the probe in `try/except`.  The exceptions it can see
are modelled by `PyExn`: `urllib.error.HTTPError` (a subclass of
`urllib.error.URLError`), other `URLError`s, `TimeoutError`, and any other
`Exception`.  The `except` clauses are tried in source order; the last one
(`except Exception`) matches every modelled exception, because in Python
all of these classes derive from `Exception`. -/

/-- An exception raised by the probe (`urllib.request.urlopen`). -/
inductive PyExn where
  | httpError (code : Nat)
  | urlError (reason : Str)
  | timeoutError
  | otherExn (msg : Str)
deriving Repr, DecidableEq

/-- What the network does for a probed URL: return a response with a
status, or raise. -/
inductive ProbeResult where
  | response (status : Nat)
  | raised (e : PyExn)
deriving Repr, DecidableEq

/-- The result triple of `check_link`:
`(status_code, error_msg, is_valid)`. -/
abbrev CheckTriple := Option Nat × Option Str × Bool

/-- The `except urllib.error.HTTPError` branch of `check_link`:
the 404 / 403 / 429 / other chain. -/
def classifyHTTPError (c : Nat) : CheckTriple :=
  if c = 404 then (some c, some "Not Found".data, false)
  else if c = 403 then (some c, some "Forbidden (rate limited?)".data, true)
  else if c = 429 then (some c, some "Too Many Requests".data, true)
  else (some c, some ("HTTP ".data ++ (Nat.repr c).data), false)

/-- The `except` chain of `check_link`, in source order: `HTTPError`,
`URLError`, `TimeoutError`, `Exception`.  Returns `none` only for an
exception no clause matches — the final `except Exception` clause makes
that impossible for every modelled exception. -/
def handleExn : PyExn → Option CheckTriple
  | .httpError c => some (classifyHTTPError c)
  | .urlError reason => some (none, some ("URL Error: ".data ++ reason), false)
  | .timeoutError => some (none, some "Timeout".data, false)
  | .otherExn msg => some (none, some ("Error: ".data ++ msg), false)

/-- The `try/except` body of `check_link` applied to the probe's outcome:
`some` is a returned triple, `none` would be an uncaught exception. -/
def check_linkE (r : ProbeResult) : Option CheckTriple :=
  match r with
  | .response s => some (some s, none, decide (200 ≤ s ∧ s < 400))
  | .raised e => handleExn e

/-- The classification `check_link` returns for a probe outcome.  (The
default is irrelevant: `check_linkE` never returns `none`.) -/
def classifyProbe (r : ProbeResult) : CheckTriple :=
  (check_linkE r).getD (none, none, false)

/-- Model of `check_link`: build the request (rewriting the
target URL), probe the network at the target, classify.  The display name
and the timeout do not influence the result; the network oracle is keyed
by the probed URL. -/
def check_link (net : Str → ProbeResult) (url : Str) (github_token : Option Str) :
    CheckTriple :=
  classifyProbe (net (build_request url github_token).url)

/-! ## Batch runner: `check_all_links` -/

/-- The dataclass `LinkResult` of the script. -/
structure LinkResult where
  name : Str
  url : Str
  line_num : Nat
  original_line : Str
  status_code : Option Nat
  error : Option Str
  is_valid : Bool
deriving Repr, DecidableEq

/-- Model of `check_with_delay` inside `check_all_links`: run `check_link` on one
entry and package the `LinkResult` (the `time.sleep` throttling has no
effect on the data). -/
def check_with_delay (net : Str → ProbeResult) (github_token : Option Str)
    (link : Str × Str × Nat × Str) : LinkResult :=
  match link with
  | (name, url, line_num, original_line) =>
    match check_link net url github_token with
    | (status_code, error, is_valid) =>
      ⟨name, url, line_num, original_line, status_code, error, is_valid⟩

/-- Model of `check_all_links`: every entry is submitted to the pool exactly once
and checked by `check_with_delay`; the pool's completion order is a
permutation of this list, which theorems quantify over separately. -/
def check_all_links (net : Str → ProbeResult) (github_token : Option Str)
    (links : List (Str × Str × Nat × Str)) : List LinkResult :=
  links.map (check_with_delay net github_token)

/-- The entry data a `LinkResult` carries over from its `LinkEntry`. -/
def entryOf (r : LinkResult) : Str × Str × Nat × Str :=
  (r.name, r.url, r.line_num, r.original_line)

/-! ## Rewriter: `delete_invalid_lines` -/

/-- The set `{r.line_num for r in results if not r.is_valid}`. -/
def invalidLineSet (results : List LinkResult) : Finset Nat :=
  ((results.filter (fun r => !r.is_valid)).map (fun r => r.line_num)).toFinset

/-- The list comprehension of `delete_invalid_lines`: keep the lines whose
1-indexed position (`enumerate(lines, 1)`, counter `i`) is not in the
invalid set. -/
def keepLines (s : Finset Nat) : Nat → List Str → List Str
  | _, [] => []
  | i, l :: ls =>
    if i ∈ s then keepLines s (i + 1) ls else l :: keepLines s (i + 1) ls

/-- Model of `delete_invalid_lines`: returns the rewritten document and the value
the function returns (`len(invalid_lines)`, the number of distinct invalid
line numbers).  With no invalid line the file is left untouched and 0 is
returned. -/
def delete_invalid_lines (lines : List Str) (results : List LinkResult) :
    List Str × Nat :=
  let invalid := invalidLineSet results
  if invalid = ∅ then (lines, 0)
  else (keepLines invalid 1 lines, invalid.card)

/-! ## Orchestrator: `main` -/

/-- The observable outcome of one run of `main`. -/
structure MainResult where
  exitCode : Nat
  checkedCount : Nat
  finalLines : List Str
deriving Repr, DecidableEq

/-- The script's `main` (the name `main` itself is reserved in Lean):
abort with exit status 1 when the README is missing; extract; exit 0 when
no links were found; check all links; when the delete flag is set and
something is invalid, rewrite the document; exit 1 when any link is
invalid, else 0. -/
def mainRun (readmeExists : Bool) (lines : List Str) (net : Str → ProbeResult)
    (github_token : Option Str) (deleteFlag : Bool) : MainResult :=
  if !readmeExists then ⟨1, 0, lines⟩
  else
    let links := extract_links_from_readme lines
    if links.isEmpty then ⟨0, 0, lines⟩
    else
      let results := check_all_links net github_token links
      let invalid_count := results.countP (fun r => !r.is_valid)
      let final :=
        if deleteFlag ∧ 0 < invalid_count then (delete_invalid_lines lines results).1
        else lines
      ⟨if 0 < invalid_count then 1 else 0, results.length, final⟩

/-- Contract of the HTTP client (`urllib.request.urlopen`) as the script
uses it: a response is only returned for a success status (after redirect
handling, a 2xx), and an `HTTPError` carries the error status (≥ 400) the
server answered with.  Raised non-HTTP exceptions are unconstrained. -/
def TransportConsistent : ProbeResult → Prop
  | .response s => 200 ≤ s ∧ s < 300
  | .raised (.httpError c) => 400 ≤ c
  | .raised _ => True

/-! ## Claims -/

/-- C1: for every `CheckOutcome` the Single-Link Checker produces, the
validity flag is true iff the obtained status is in `[200, 400)` or is 403
or 429; 404 gives error "Not Found" and validity false, any other HTTP
error status gives "HTTP <status>" and validity false, no-status outcomes
(transport error, "Timeout", other failures) are invalid, while 403 and
429 give their rate-limit notes with validity true. -/
theorem C1_validity_classification (r : ProbeResult) (h : TransportConsistent r) :
    ((classifyProbe r).2.2 = true ↔
      ∃ s, (classifyProbe r).1 = some s ∧ (200 ≤ s ∧ s < 400 ∨ s = 403 ∨ s = 429)) ∧
    ((classifyProbe r).1 = none → (classifyProbe r).2.2 = false) ∧
    classifyProbe (.raised (.httpError 404)) = (some 404, some "Not Found".data, false) ∧
    (∀ c, c ≠ 404 → c ≠ 403 → c ≠ 429 →
      classifyProbe (.raised (.httpError c))
        = (some c, some ("HTTP ".data ++ (Nat.repr c).data), false)) ∧
    classifyProbe (.raised (.httpError 403))
      = (some 403, some "Forbidden (rate limited?)".data, true) ∧
    classifyProbe (.raised (.httpError 429))
      = (some 429, some "Too Many Requests".data, true) ∧
    classifyProbe (.raised .timeoutError) = (none, some "Timeout".data, false) ∧
    (∀ reason, classifyProbe (.raised (.urlError reason))
      = (none, some ("URL Error: ".data ++ reason), false)) ∧
    (∀ msg, classifyProbe (.raised (.otherExn msg))
      = (none, some ("Error: ".data ++ msg), false)) := by
  refine ⟨?_, ?_, by decide, ?_, by decide, by decide, by decide,
    fun reason => rfl, fun msg => rfl⟩
  · cases r with
    | response s =>
      simp only [classifyProbe, check_linkE, Option.getD_some, decide_eq_true_eq,
        Option.some.injEq]
      unfold TransportConsistent at h
      constructor
      · rintro ⟨h1, h2⟩; exact ⟨s, rfl, Or.inl ⟨h1, h2⟩⟩
      · rintro ⟨s', hs', _⟩; omega
    | raised e =>
      cases e with
      | httpError c =>
        unfold TransportConsistent at h
        simp only [classifyProbe, check_linkE, handleExn, Option.getD_some]
        unfold classifyHTTPError
        split_ifs with h404 h403 h429
        · simp only [Bool.false_eq_true, false_iff, not_exists, not_and,
            Option.some.injEq]
          intro s hs; omega
        · simp only [true_iff, Option.some.injEq]
          exact ⟨c, rfl, by omega⟩
        · simp only [true_iff, Option.some.injEq]
          exact ⟨c, rfl, by omega⟩
        · simp only [Bool.false_eq_true, false_iff, not_exists, not_and,
            Option.some.injEq]
          intro s hs; omega
      | urlError reason => simp [classifyProbe, check_linkE, handleExn]
      | timeoutError => simp [classifyProbe, check_linkE, handleExn]
      | otherExn msg => simp [classifyProbe, check_linkE, handleExn]
  · cases r with
    | response s => simp [classifyProbe, check_linkE]
    | raised e =>
      cases e with
      | httpError c =>
        simp only [classifyProbe, check_linkE, handleExn, Option.getD_some]
        unfold classifyHTTPError
        split_ifs <;> simp
      | urlError reason => intro _; rfl
      | timeoutError => intro _; rfl
      | otherExn msg => intro _; rfl
  · intro c h404 h403 h429
    simp [classifyProbe, check_linkE, handleExn, classifyHTTPError, h404, h403, h429]

/-- Witness for C1 at the concrete outcome of an HTTP 403. -/
theorem C1_validity_classification_witness :
    TransportConsistent (ProbeResult.raised (PyExn.httpError 403)) ∧
    ((classifyProbe (ProbeResult.raised (PyExn.httpError 403))).2.2 = true ↔
      ∃ s, (classifyProbe (ProbeResult.raised (PyExn.httpError 403))).1 = some s ∧
        (200 ≤ s ∧ s < 400 ∨ s = 403 ∨ s = 429)) :=
  ⟨(by decide : (400 : Nat) ≤ 403),
   (C1_validity_classification (ProbeResult.raised (PyExn.httpError 403))
      (by decide : (400 : Nat) ≤ 403)).1⟩

/-- C2 counterexample: `https://github.com/foo` does not match the tree
shape, so it is checked as-is (not rewritten to the API form), yet with a
token present `check_link` does attach the Authorization header — the
code keys the headers on the host being `github.com`, not on the rewrite
having happened. -/
theorem C2_counterexample :
    check_url "https://github.com/foo".data = "https://github.com/foo".data ∧
    hasHeader (build_request "https://github.com/foo".data (some "t".data))
      "Authorization".data = true ∧
    hasHeader (build_request "https://github.com/foo".data (some "t".data))
      "Accept".data = true := by
  decide

/-- C2 amended: the authorization header and the API-version-accepting
header are attached iff the URL's host is `github.com` and a token is
supplied — whether or not the target was rewritten to the API form. -/
theorem C2_auth_headers_amended (url : Str) (github_token : Option Str) :
    hasHeader (build_request url github_token) "Authorization".data
      = (is_github url && github_token.isSome) ∧
    hasHeader (build_request url github_token) "Accept".data
      = (is_github url && github_token.isSome) := by
  cases hg : is_github url <;> cases github_token <;>
    simp [build_request, hasHeader, hg]

/-- C3: a URL whose host is `github.com` and whose path has at least 6
slash-split segments with the 4th literally `tree` is rewritten to
`https://api.github.com/repos/<owner>/<repo>/contents/<file-path>?ref=<branch>`;
every other URL (including `github.com` URLs of another shape) is checked
unmodified. -/
theorem C3_url_rewrite (url : Str) :
    ((urlparse url).netloc = "github.com".data →
     6 ≤ (splitOnChar '/' (urlparse url).path).length →
     (splitOnChar '/' (urlparse url).path).getD 3 [] = "tree".data →
      check_url url =
        "https://api.github.com/repos/".data
          ++ (splitOnChar '/' (urlparse url).path).getD 1 []
          ++ "/".data ++ (splitOnChar '/' (urlparse url).path).getD 2 []
          ++ "/contents/".data
          ++ List.intercalate "/".data ((splitOnChar '/' (urlparse url).path).drop 5)
          ++ "?ref=".data ++ (splitOnChar '/' (urlparse url).path).getD 4 []) ∧
    (¬ ((urlparse url).netloc = "github.com".data ∧
        6 ≤ (splitOnChar '/' (urlparse url).path).length ∧
        (splitOnChar '/' (urlparse url).path).getD 3 [] = "tree".data) →
      check_url url = url) := by
  constructor
  · intro h1 h2 h3
    simp only [check_url]
    rw [if_pos h1, if_pos ⟨h2, h3⟩]
  · intro hn
    by_cases h1 : (urlparse url).netloc = "github.com".data
    · have h2 : ¬ (6 ≤ (splitOnChar '/' (urlparse url).path).length ∧
          (splitOnChar '/' (urlparse url).path).getD 3 [] = "tree".data) := by
        intro h; exact hn ⟨h1, h⟩
      simp only [check_url]
      rw [if_pos h1, if_neg h2]
    · simp only [check_url]
      rw [if_neg h1]

/-- Witness for C3 at the specification's example URL. -/
theorem C3_url_rewrite_witness :
    check_url "https://github.com/o/r/tree/main/path/to/FILE.md".data
      = "https://api.github.com/repos/o/r/contents/path/to/FILE.md?ref=main".data := by
  have h := (C3_url_rewrite "https://github.com/o/r/tree/main/path/to/FILE.md".data).1
    (by decide) (by decide) (by decide)
  exact h.trans (by decide)

/-- C8: the Single-Link Checker is total on per-link failures — every
probe outcome, including every exception the probe can raise, is turned
into a returned `(status, error, validity)` triple (`check_linkE` never
falls through its handler chain), and the batch checks exactly the given
entries, each exactly once, in the order submitted. -/
theorem C8_total_no_abort (net : Str → ProbeResult) (github_token : Option Str)
    (links : List (Str × Str × Nat × Str)) :
    (∀ r : ProbeResult, ∃ out, check_linkE r = some out) ∧
    check_all_links net github_token links = links.map (check_with_delay net github_token) ∧
    (check_all_links net github_token links).length = links.length := by
  refine ⟨?_, rfl, by simp [check_all_links]⟩
  intro r
  cases r with
  | response s => exact ⟨_, rfl⟩
  | raised e => cases e <;> exact ⟨_, rfl⟩

/-- The extraction loop emits exactly one entry per matching line. -/
theorem extractGo_length (ls : List Str) :
    ∀ n, (extractGo n ls).length = ls.countP (fun l => (searchLine l).isSome) := by
  induction ls with
  | nil => intro n; rfl
  | cons l ls ih =>
    intro n
    unfold extractGo
    cases h : searchLine l with
    | some p =>
      cases p with
      | mk name url => simp [List.countP_cons, h, ih]
    | none => simp [List.countP_cons, h, ih]

/-- Every entry the extraction loop emits carries the 1-indexed position
(relative to the starting counter) of its line, the original line text,
and the captures of the match on that line. -/
theorem extractGo_mem (ls : List Str) :
    ∀ n, ∀ e ∈ extractGo n ls,
      n ≤ e.2.2.1 ∧ e.2.2.1 < n + ls.length ∧
      ls[e.2.2.1 - n]? = some e.2.2.2 ∧
      searchLine e.2.2.2 = some (e.1, e.2.1) := by
  induction ls with
  | nil => intro n e he; simp [extractGo] at he
  | cons l ls ih =>
    intro n e he
    unfold extractGo at he
    cases h : searchLine l with
    | some p =>
      cases p with
      | mk name url =>
        rw [h] at he
        rcases List.mem_cons.mp he with he | he
        · subst he
          refine ⟨Nat.le_refl n, by simp, ?_, ?_⟩
          · simp
          · exact h
        · obtain ⟨ha, hb, hc, hd⟩ := ih (n + 1) e he
          refine ⟨by omega, by simp; omega, ?_, hd⟩
          have hk : e.2.2.1 - n = (e.2.2.1 - (n + 1)) + 1 := by omega
          rw [hk, List.getElem?_cons_succ]
          exact hc
    | none =>
      rw [h] at he
      obtain ⟨ha, hb, hc, hd⟩ := ih (n + 1) e he
      refine ⟨by omega, by simp; omega, ?_, hd⟩
      have hk : e.2.2.1 - n = (e.2.2.1 - (n + 1)) + 1 := by omega
      rw [hk, List.getElem?_cons_succ]
      exact hc

/-- C4: the Extractor produces exactly one `LinkEntry` per line matching
the pattern (the number of entries equals the number of matching lines),
and each entry records the 1-indexed number of its line, that line's
original text, and the first match's captures on it; non-matching lines
produce nothing. -/
theorem C4_one_entry_per_matching_line (lines : List Str) :
    (extract_links_from_readme lines).length
      = lines.countP (fun l => (searchLine l).isSome) ∧
    ∀ e ∈ extract_links_from_readme lines,
      1 ≤ e.2.2.1 ∧ e.2.2.1 ≤ lines.length ∧
      lines[e.2.2.1 - 1]? = some e.2.2.2 ∧
      searchLine e.2.2.2 = some (e.1, e.2.1) := by
  constructor
  · exact extractGo_length lines 1
  · intro e he
    obtain ⟨ha, hb, hc, hd⟩ := extractGo_mem lines 1 e he
    exact ⟨ha, by omega, hc, hd⟩

/-- Witness for C4 on a two-line document with one matching line. -/
theorem C4_one_entry_per_matching_line_witness :
    (extract_links_from_readme
        ["- [A](https://github.com/openclaw/skills/a/SKILL.md)".data,
         "no link here".data]).length
      = ["- [A](https://github.com/openclaw/skills/a/SKILL.md)".data,
         "no link here".data].countP (fun l => (searchLine l).isSome) ∧
    (1 ≤ ("A".data, "https://github.com/openclaw/skills/a/SKILL.md".data, 1,
          "- [A](https://github.com/openclaw/skills/a/SKILL.md)".data).2.2.1 ∧
     ("A".data, "https://github.com/openclaw/skills/a/SKILL.md".data, 1,
          "- [A](https://github.com/openclaw/skills/a/SKILL.md)".data).2.2.1
        ≤ ["- [A](https://github.com/openclaw/skills/a/SKILL.md)".data,
           "no link here".data].length ∧
     ["- [A](https://github.com/openclaw/skills/a/SKILL.md)".data,
      "no link here".data][("A".data,
          "https://github.com/openclaw/skills/a/SKILL.md".data, 1,
          "- [A](https://github.com/openclaw/skills/a/SKILL.md)".data).2.2.1 - 1]?
        = some ("A".data, "https://github.com/openclaw/skills/a/SKILL.md".data, 1,
          "- [A](https://github.com/openclaw/skills/a/SKILL.md)".data).2.2.2 ∧
     searchLine ("A".data, "https://github.com/openclaw/skills/a/SKILL.md".data, 1,
          "- [A](https://github.com/openclaw/skills/a/SKILL.md)".data).2.2.2
        = some (("A".data, "https://github.com/openclaw/skills/a/SKILL.md".data, 1,
          "- [A](https://github.com/openclaw/skills/a/SKILL.md)".data).1,
         ("A".data, "https://github.com/openclaw/skills/a/SKILL.md".data, 1,
          "- [A](https://github.com/openclaw/skills/a/SKILL.md)".data).2.1)) :=
  ⟨(C4_one_entry_per_matching_line _).1,
   (C4_one_entry_per_matching_line _).2
     ("A".data, "https://github.com/openclaw/skills/a/SKILL.md".data, 1,
      "- [A](https://github.com/openclaw/skills/a/SKILL.md)".data) (by decide)⟩

/-- A successful pattern match at a position always captures a URL that
starts with the literal `https://github.com/openclaw/skills/` of the
pattern. -/
theorem matchAt_url (cs name url : Str) (h : matchAt cs = some (name, url)) :
    ∃ tl, url = skillsUrlStart ++ tl := by
  simp only [matchAt] at h
  all_goals try split at h
  all_goals try exact Option.noConfusion h
  all_goals try split at h
  all_goals try exact Option.noConfusion h
  all_goals try split at h
  all_goals try exact Option.noConfusion h
  all_goals try split at h
  all_goals try exact Option.noConfusion h
  all_goals try split at h
  all_goals try exact Option.noConfusion h
  all_goals try split at h
  all_goals try exact Option.noConfusion h
  all_goals try split at h
  all_goals try exact Option.noConfusion h
  all_goals try split at h
  all_goals try exact Option.noConfusion h
  all_goals try split at h
  all_goals try exact Option.noConfusion h
  all_goals try split at h
  all_goals try exact Option.noConfusion h
  all_goals try split at h
  all_goals try exact Option.noConfusion h
  all_goals try split at h
  all_goals try exact Option.noConfusion h
  all_goals
    simp only [Option.some.injEq, Prod.mk.injEq] at h
    exact ⟨_, h.2.symm⟩

/-- The search function inherits the capture shape from `matchAt`. -/
theorem searchLine_url (cs : Str) : ∀ name url, searchLine cs = some (name, url) →
    ∃ tl, url = skillsUrlStart ++ tl := by
  induction cs with
  | nil => intro name url h; exact Option.noConfusion h
  | cons c cs ih =>
    intro name url h
    unfold searchLine at h
    split at h
    · rename_i r hr
      cases r with
      | mk n u =>
        simp only [Option.some.injEq, Prod.mk.injEq] at h
        obtain ⟨h1, h2⟩ := h
        subst h1; subst h2
        exact matchAt_url _ _ _ hr
    · exact ih name url h

/-- Parsing anything that begins with the pattern's literal URL part
computes `github.com` as the host, whatever the rest of the URL is. -/
theorem urlparse_skillsUrl_netloc (tl : Str) :
    (urlparse (skillsUrlStart ++ tl)).netloc = "github.com".data := rfl

/-- C10: every extracted entry's URL begins with the literal
`https://github.com/openclaw/skills/`, so `urlparse` gives it host
`github.com` and the checker's `is_github` test is true for it. -/
theorem C10_extracted_entries_github (lines : List Str) :
    ∀ e ∈ extract_links_from_readme lines,
      (∃ tl, e.2.1 = skillsUrlStart ++ tl) ∧
      (urlparse e.2.1).netloc = "github.com".data ∧
      is_github e.2.1 = true := by
  intro e he
  obtain ⟨_, _, _, hd⟩ := extractGo_mem lines 1 e he
  obtain ⟨tl, htl⟩ := searchLine_url _ _ _ hd
  refine ⟨⟨tl, htl⟩, ?_, ?_⟩
  · rw [htl]; exact urlparse_skillsUrl_netloc tl
  · simp [is_github, htl, urlparse_skillsUrl_netloc tl]

/-- Witness for C10 on a one-line document. -/
theorem C10_extracted_entries_github_witness :
    (∃ tl, ("A".data, "https://github.com/openclaw/skills/a/SKILL.md".data, 1,
        "- [A](https://github.com/openclaw/skills/a/SKILL.md)".data).2.1
      = skillsUrlStart ++ tl) ∧
    (urlparse ("A".data, "https://github.com/openclaw/skills/a/SKILL.md".data, 1,
        "- [A](https://github.com/openclaw/skills/a/SKILL.md)".data).2.1).netloc
      = "github.com".data ∧
    is_github ("A".data, "https://github.com/openclaw/skills/a/SKILL.md".data, 1,
        "- [A](https://github.com/openclaw/skills/a/SKILL.md)".data).2.1 = true :=
  C10_extracted_entries_github
    ["- [A](https://github.com/openclaw/skills/a/SKILL.md)".data]
    ("A".data, "https://github.com/openclaw/skills/a/SKILL.md".data, 1,
     "- [A](https://github.com/openclaw/skills/a/SKILL.md)".data) (by decide)

/-- The kept lines are a sublist of the original lines: contents and
relative order are untouched. -/
theorem keepLines_sublist (s : Finset Nat) : ∀ (i : Nat) (ls : List Str),
    (keepLines s i ls).Sublist ls := by
  intro i ls
  induction ls generalizing i with
  | nil => simp [keepLines]
  | cons l ls ih =>
    unfold keepLines
    split_ifs with hi
    · exact List.Sublist.cons l (ih (i + 1))
    · exact List.Sublist.cons₂ l (ih (i + 1))

/-- Keeping the lines whose 1-indexed position avoids `s` drops exactly
the positions of the index range that lie in `s`. -/
theorem keepLines_length (s : Finset Nat) : ∀ (i : Nat) (ls : List Str),
    (keepLines s i ls).length
      + ((List.range' i ls.length).filter (fun j => decide (j ∈ s))).length
      = ls.length := by
  intro i ls
  induction ls generalizing i with
  | nil => simp [keepLines]
  | cons l ls ih =>
    unfold keepLines
    rw [List.length_cons, List.range'_succ]
    split_ifs with hi <;> simp [List.filter_cons, hi] <;>
      have := ih (i + 1) <;> omega

/-- A finset of indices inside `[1, n]` is hit exactly `card` many times
by the index range. -/
theorem filter_range'_card (s : Finset Nat) (n : Nat)
    (hr : ∀ x ∈ s, 1 ≤ x ∧ x ≤ n) :
    ((List.range' 1 n).filter (fun j => decide (j ∈ s))).length = s.card := by
  have hnd : ((List.range' 1 n).filter (fun j => decide (j ∈ s))).Nodup :=
    (List.nodup_range' 1 n).filter _
  have hfs : ((List.range' 1 n).filter (fun j => decide (j ∈ s))).toFinset = s := by
    ext x
    simp only [List.mem_toFinset, List.mem_filter, List.mem_range'_1,
      decide_eq_true_eq]
    constructor
    · rintro ⟨_, hx⟩; exact hx
    · intro hx
      obtain ⟨h1, h2⟩ := hr x hx
      exact ⟨⟨h1, by omega⟩, hx⟩
  conv_rhs => rw [← hfs]
  exact (List.toFinset_card_of_nodup hnd).symm

/-- C5 counterexample: an invalid outcome whose line number (2) lies
outside the 1-line document removes nothing, so the resulting line count
is not the original count minus the number of invalid outcomes, and the
returned value (1) is not the count of removed lines (0). -/
theorem C5_counterexample :
    ¬ ((delete_invalid_lines ["a".data]
          ([⟨"n".data, "u".data, 2, "l".data, some 404, some "Not Found".data,
             false⟩] : List LinkResult)).1.length
        = (["a".data] : List Str).length
          - List.countP (fun r => !r.is_valid)
              ([⟨"n".data, "u".data, 2, "l".data, some 404, some "Not Found".data,
                 false⟩] : List LinkResult)) ∧
    ¬ ((delete_invalid_lines ["a".data]
          ([⟨"n".data, "u".data, 2, "l".data, some 404, some "Not Found".data,
             false⟩] : List LinkResult)).2
        = (["a".data] : List Str).length
          - (delete_invalid_lines ["a".data]
              ([⟨"n".data, "u".data, 2, "l".data, some 404, some "Not Found".data,
                 false⟩] : List LinkResult)).1.length) := by
  decide

/-- C5 amended: provided the invalid outcomes have pairwise distinct line
numbers, each within `[1, line count]` — as holds for outcomes built from
entries extracted from the same, unmutated document — the Rewriter keeps
exactly the not-invalid positions in order (a sublist of the original
lines), the resulting line count is the original count minus the number
of invalid outcomes, the returned value is the count of removed lines,
and with no invalid outcome it changes nothing and returns 0. -/
theorem C5_rewriter_amended (lines : List Str) (results : List LinkResult)
    (hnd : ((results.filter (fun r => !r.is_valid)).map (fun r => r.line_num)).Nodup)
    (hr : ∀ r ∈ results, r.is_valid = false →
      1 ≤ r.line_num ∧ r.line_num ≤ lines.length) :
    (delete_invalid_lines lines results).1.Sublist lines ∧
    (delete_invalid_lines lines results).1.length
      = lines.length - results.countP (fun r => !r.is_valid) ∧
    (delete_invalid_lines lines results).2
      = lines.length - (delete_invalid_lines lines results).1.length ∧
    (results.countP (fun r => !r.is_valid) = 0 →
      (delete_invalid_lines lines results).1 = lines ∧
      (delete_invalid_lines lines results).2 = 0) := by
  have hcount : results.countP (fun r => !r.is_valid)
      = ((results.filter (fun r => !r.is_valid)).map (fun r => r.line_num)).length := by
    rw [List.length_map, List.countP_eq_length_filter]
  have hcard : (invalidLineSet results).card
      = ((results.filter (fun r => !r.is_valid)).map (fun r => r.line_num)).length := by
    unfold invalidLineSet
    exact List.toFinset_card_of_nodup hnd
  have hsub : ∀ x ∈ invalidLineSet results, 1 ≤ x ∧ x ≤ lines.length := by
    intro x hx
    rw [invalidLineSet, List.mem_toFinset] at hx
    obtain ⟨r, hrmem, hre⟩ := List.mem_map.mp hx
    obtain ⟨hr1, hr2⟩ := List.mem_filter.mp hrmem
    rw [← hre]
    exact hr r hr1 (by simpa using hr2)
  simp only [delete_invalid_lines]
  split_ifs with hempty
  · have hL0 : ((results.filter (fun r => !r.is_valid)).map (fun r => r.line_num)).length = 0 := by
      rw [← hcard, hempty, Finset.card_empty]
    refine ⟨List.Sublist.refl lines,
      by show lines.length = lines.length - List.countP (fun r => !r.is_valid) results
         omega,
      by simp, fun _ => ⟨rfl, rfl⟩⟩
  · have hklen := keepLines_length (invalidLineSet results) 1 lines
    have hfr := filter_range'_card (invalidLineSet results) lines.length hsub
    have hne : (invalidLineSet results).card ≠ 0 := by
      simpa [Finset.card_eq_zero] using hempty
    exact ⟨keepLines_sublist _ 1 lines, by simp; omega, by simp; omega,
      fun h0 => absurd (by omega : (invalidLineSet results).card = 0) hne⟩

/-- Witness for C5 on a two-line document with one in-range invalid
outcome. -/
theorem C5_rewriter_amended_witness :
    (delete_invalid_lines ["a".data, "b".data]
        ([⟨"n".data, "u".data, 1, "l".data, some 404, some "Not Found".data,
           false⟩] : List LinkResult)).1.Sublist ["a".data, "b".data] ∧
    (delete_invalid_lines ["a".data, "b".data]
        ([⟨"n".data, "u".data, 1, "l".data, some 404, some "Not Found".data,
           false⟩] : List LinkResult)).1.length
      = (["a".data, "b".data] : List Str).length
        - List.countP (fun r => !r.is_valid)
            ([⟨"n".data, "u".data, 1, "l".data, some 404, some "Not Found".data,
               false⟩] : List LinkResult) ∧
    (delete_invalid_lines ["a".data, "b".data]
        ([⟨"n".data, "u".data, 1, "l".data, some 404, some "Not Found".data,
           false⟩] : List LinkResult)).2
      = (["a".data, "b".data] : List Str).length
        - (delete_invalid_lines ["a".data, "b".data]
            ([⟨"n".data, "u".data, 1, "l".data, some 404, some "Not Found".data,
               false⟩] : List LinkResult)).1.length ∧
    (List.countP (fun r => !r.is_valid)
        ([⟨"n".data, "u".data, 1, "l".data, some 404, some "Not Found".data,
           false⟩] : List LinkResult) = 0 →
      (delete_invalid_lines ["a".data, "b".data]
          ([⟨"n".data, "u".data, 1, "l".data, some 404, some "Not Found".data,
             false⟩] : List LinkResult)).1 = ["a".data, "b".data] ∧
      (delete_invalid_lines ["a".data, "b".data]
          ([⟨"n".data, "u".data, 1, "l".data, some 404, some "Not Found".data,
             false⟩] : List LinkResult)).2 = 0) :=
  C5_rewriter_amended ["a".data, "b".data]
    ([⟨"n".data, "u".data, 1, "l".data, some 404, some "Not Found".data,
       false⟩] : List LinkResult) (by decide) (by decide)

/-- C6: whatever completion order the worker pool yields, the produced
outcomes are in 1:1 correspondence with the entries given to the Batch
Runner: same cardinality, and projecting each outcome to its carried
(name, URL, line number, original line) gives back exactly the multiset
of entries. -/
theorem C6_outcomes_match_entries (net : Str → ProbeResult)
    (github_token : Option Str) (links : List (Str × Str × Nat × Str))
    (results : List LinkResult)
    (hperm : results.Perm (check_all_links net github_token links)) :
    results.length = links.length ∧ (results.map entryOf).Perm links := by
  have hid : ∀ l : Str × Str × Nat × Str,
      entryOf (check_with_delay net github_token l) = l := by
    rintro ⟨name, url, line_num, original_line⟩
    rfl
  constructor
  · rw [hperm.length_eq]
    simp [check_all_links]
  · have h2 := hperm.map entryOf
    rw [check_all_links, List.map_map] at h2
    have h3 : links.map (entryOf ∘ check_with_delay net github_token) = links := by
      conv_rhs => rw [← List.map_id links]
      exact List.map_congr_left fun l _ => hid l
    rwa [h3] at h2

/-- Witness for C6 on a singleton batch in the identity completion
order. -/
theorem C6_outcomes_match_entries_witness :
    (check_all_links (fun _ => ProbeResult.response 200) none
        [("A".data, "https://x".data, 1, "line".data)]).length
      = [("A".data, "https://x".data, 1, "line".data)].length ∧
    ((check_all_links (fun _ => ProbeResult.response 200) none
        [("A".data, "https://x".data, 1, "line".data)]).map entryOf).Perm
      [("A".data, "https://x".data, 1, "line".data)] :=
  C6_outcomes_match_entries (fun _ => ProbeResult.response 200) none
    [("A".data, "https://x".data, 1, "line".data)] _ (List.Perm.refl _)

/-- C7: the exit status is independent of the delete flag; a missing
README exits with status 1 before any check; with the README present the
status is 0 when no link was extracted or every outcome is valid, and 1
when at least one outcome is invalid. -/
theorem C7_exit_status (readmeExists : Bool) (lines : List Str)
    (net : Str → ProbeResult) (github_token : Option Str) (deleteFlag : Bool) :
    ((mainRun readmeExists lines net github_token deleteFlag).exitCode
      = (mainRun readmeExists lines net github_token (!deleteFlag)).exitCode) ∧
    (readmeExists = false →
      mainRun readmeExists lines net github_token deleteFlag = ⟨1, 0, lines⟩) ∧
    (readmeExists = true →
      (mainRun readmeExists lines net github_token deleteFlag).exitCode
        = if (check_all_links net github_token
              (extract_links_from_readme lines)).countP (fun r => !r.is_valid) = 0
          then 0 else 1) := by
  cases readmeExists with
  | false => exact ⟨rfl, fun _ => rfl, fun h => Bool.noConfusion h⟩
  | true =>
    refine ⟨?_, fun h => Bool.noConfusion h, fun _ => ?_⟩
    · simp only [mainRun]
      split_ifs <;> rfl
    · simp only [mainRun, Bool.not_true, Bool.false_eq_true, if_false]
      by_cases hempty : (extract_links_from_readme lines).isEmpty
      · rw [if_pos hempty]
        have : check_all_links net github_token (extract_links_from_readme lines) = [] := by
          rw [List.isEmpty_iff] at hempty
          simp [check_all_links, hempty]
        rw [this]
        simp
      · rw [if_neg hempty]
        by_cases hinv : (check_all_links net github_token
            (extract_links_from_readme lines)).countP (fun r => !r.is_valid) = 0
        · simp [hinv]
        · simp only [hinv, if_false]
          have : 0 < (check_all_links net github_token
              (extract_links_from_readme lines)).countP (fun r => !r.is_valid) := by
            omega
          simp [this]

/-- Witness for C7 on an existing empty document. -/
theorem C7_exit_status_witness :
    (mainRun true [] (fun _ => ProbeResult.response 200) none false).exitCode
      = if (check_all_links (fun _ => ProbeResult.response 200) none
            (extract_links_from_readme [])).countP (fun r => !r.is_valid) = 0
        then 0 else 1 :=
  (C7_exit_status true [] (fun _ => ProbeResult.response 200) none false).2.2 rfl

/-- C9: with identical network responses for each checked URL, two runs
over the same document produce the identical list of classifications, and
therefore — whatever the two pools' completion orders — the same multiset
of outcomes. -/
theorem C9_classification_deterministic (lines : List Str)
    (github_token : Option Str) (net1 net2 : Str → ProbeResult)
    (results1 results2 : List LinkResult)
    (hnet : ∀ e ∈ extract_links_from_readme lines,
      net1 (check_url e.2.1) = net2 (check_url e.2.1))
    (h1 : results1.Perm
      (check_all_links net1 github_token (extract_links_from_readme lines)))
    (h2 : results2.Perm
      (check_all_links net2 github_token (extract_links_from_readme lines))) :
    check_all_links net1 github_token (extract_links_from_readme lines)
      = check_all_links net2 github_token (extract_links_from_readme lines) ∧
    results1.Perm results2 := by
  have heq : check_all_links net1 github_token (extract_links_from_readme lines)
      = check_all_links net2 github_token (extract_links_from_readme lines) := by
    unfold check_all_links
    refine List.map_congr_left ?_
    intro e he
    obtain ⟨name, url, line_num, original_line⟩ := e
    simp only [check_with_delay, check_link, build_request]
    rw [hnet _ he]
  exact ⟨heq, h1.trans (heq ▸ h2.symm)⟩

/-- Witness for C9 on a one-link document with two (equal) networks. -/
theorem C9_classification_deterministic_witness :
    check_all_links (fun _ => ProbeResult.response 200) none
        (extract_links_from_readme
          ["- [A](https://github.com/openclaw/skills/a/SKILL.md)".data])
      = check_all_links (fun _ => ProbeResult.response 200) none
          (extract_links_from_readme
            ["- [A](https://github.com/openclaw/skills/a/SKILL.md)".data]) ∧
    (check_all_links (fun _ => ProbeResult.response 200) none
        (extract_links_from_readme
          ["- [A](https://github.com/openclaw/skills/a/SKILL.md)".data])).Perm
      (check_all_links (fun _ => ProbeResult.response 200) none
        (extract_links_from_readme
          ["- [A](https://github.com/openclaw/skills/a/SKILL.md)".data])) :=
  C9_classification_deterministic
    ["- [A](https://github.com/openclaw/skills/a/SKILL.md)".data] none
    (fun _ => ProbeResult.response 200) (fun _ => ProbeResult.response 200) _ _
    (fun _ _ => rfl) (List.Perm.refl _) (List.Perm.refl _)
